import Mathlib

set_option maxRecDepth 10000

/-!
Verification of the table-extraction core of the iccas-dataset repository
(`src/table_extraction.py`).

Modelling conventions:
* page texts and tokens are `List Char`;
* Python float values that can appear in a table cell are modelled by the
  `Value` type: exact rationals for finite numbers (every numeric literal the
  extractor parses is a finite decimal, hence exactly representable) and an
  explicit `vnan` constructor for the `math.nan` missing marker;
* raised Python exceptions are modelled with `Except ExtractionErr`;
* `re.IGNORECASE` is modelled with ASCII case folding (`Char.toLower`), which
  is exact on every character the claims exercise.
-/

/-- Calendar timestamp at minute granularity, as produced by Python's
`datetime(year, month, day, hour, minute)`. -/
structure PyDateTime where
  year : Nat
  month : Nat
  day : Nat
  hour : Nat
  minute : Nat
deriving DecidableEq, Repr

/-- Dynamic Python value flowing through the extractor: strings, finite
numbers (exact rationals), the float NaN missing marker, and datetimes. -/
inductive Value where
  | vstr (s : List Char)
  | vnum (q : ℚ)
  | vnan
  | vdate (d : PyDateTime)
deriving DecidableEq, Repr

/-- The error outcomes of the extractor: the two `TableExtractionError`
variants raised by `find_table_page` / `extract_datetime`, the `ValueError`
raised by `convert_values` / `int()` / `float()`, the `AttributeError` a
non-string argument of the converters would raise, and the
`TableExtractionError` raised by `sanity_check_with_totals` (which names the
offending column and carries both the computed and the expected sum). -/
inductive ExtractionErr where
  | tableNotFound
  | timestampNotFound
  | valueError
  | attributeError
  | inconsistentTotals (col : String) (actual expected : ℚ)
deriving DecidableEq, Repr

/-- `true` exactly on the error outcomes. -/
def isErr {α : Type} : Except ExtractionErr α → Bool
  | .error _ => true
  | .ok _ => false

/-! ## Character and string utilities -/

/-- Case-insensitive character comparison (ASCII folding). -/
def charCI (a b : Char) : Bool := a.toLower == b.toLower

/-- Case-insensitive prefix test, used for the `re.IGNORECASE` patterns. -/
def isPrefixCI : List Char → List Char → Bool
  | [], _ => true
  | _ :: _, [] => false
  | p :: ps, c :: cs => charCI p c && isPrefixCI ps cs

/-- ASCII whitespace, as stripped by Python's `int()` / `float()`. -/
def isWs (c : Char) : Bool := c == ' ' || c == '\t' || c == '\n' || c == '\r'

/-- Strip leading and trailing whitespace (Python `str.strip`). -/
def trimWs (cs : List Char) : List Char :=
  ((cs.dropWhile isWs).reverse.dropWhile isWs).reverse

/-- Value of a digit string read in base 10. -/
def digitsToNat (cs : List Char) : Nat :=
  cs.foldl (fun n c => 10 * n + (c.toNat - 48)) 0

/-- Parse a non-empty all-digit string, the unsigned core of Python's
`int()`. -/
def parseUnsignedInt (cs : List Char) : Option Nat :=
  if cs.isEmpty then none
  else if cs.all Char.isDigit then some (digitsToNat cs) else none

/-- Python's `int(str)` builtin on the decimal fragment the extractor uses:
surrounding whitespace is stripped, an optional single sign is accepted, and
the remainder must be a non-empty run of digits.  (Underscore grouping and
non-decimal bases are never exercised by the extractor and are omitted.) -/
def pyIntParse (cs : List Char) : Option Int :=
  let t := trimWs cs
  if t.head? = some '+' then (parseUnsignedInt t.tail).map Int.ofNat
  else if t.head? = some '-' then (parseUnsignedInt t.tail).map (fun n => -(n : Int))
  else (parseUnsignedInt t).map Int.ofNat

/-- Apply a decimal exponent suffix (the part after `e`/`E` of a Python float
literal) to an already-parsed mantissa. -/
def pyExpApply (mant : ℚ) (cs : List Char) : Option ℚ :=
  let sgn : Bool × List Char :=
    if cs.head? = some '+' then (false, cs.tail)
    else if cs.head? = some '-' then (true, cs.tail)
    else (false, cs)
  if sgn.2.isEmpty then none
  else if sgn.2.all Char.isDigit then
    some (if sgn.1 then mant / (10 : ℚ) ^ digitsToNat sgn.2
          else mant * (10 : ℚ) ^ digitsToNat sgn.2)
  else none

/-- Unsigned part of Python's `float(str)` on finite decimal literals:
`digits`, `digits.`, `digits.digits` or `.digits`, with an optional
`e`/`E` exponent.  (`inf`/`nan` literals are never produced by the
extractor's tokens and are omitted, keeping every value exact.) -/
def pyFloatMag (cs : List Char) : Option ℚ :=
  let intDs := cs.takeWhile Char.isDigit
  let r1 := cs.dropWhile Char.isDigit
  let fracDs := if r1.head? = some '.' then r1.tail.takeWhile Char.isDigit else []
  let r2 := if r1.head? = some '.' then r1.tail.dropWhile Char.isDigit else r1
  if intDs.isEmpty && fracDs.isEmpty then none
  else
    let mant : ℚ := (digitsToNat intDs : ℚ) + (digitsToNat fracDs : ℚ) / (10 : ℚ) ^ fracDs.length
    if r2.isEmpty then some mant
    else if r2.head? = some 'e' ∨ r2.head? = some 'E' then pyExpApply mant r2.tail
    else none

/-- Python's `float(str)` builtin on finite decimal literals: whitespace
stripped, optional sign, then `pyFloatMag`. -/
def pyFloatParse (cs : List Char) : Option ℚ :=
  let t := trimWs cs
  if t.head? = some '+' then pyFloatMag t.tail
  else if t.head? = some '-' then (pyFloatMag t.tail).map Neg.neg
  else pyFloatMag t

/-! ## Value converters (`to_int`, `to_float`) -/

/-- Python truthiness of the values the converters can receive:
the empty string and zero are falsy; `math.nan` is truthy. -/
def pyFalsy : Value → Bool
  | .vstr s => s.isEmpty
  | .vnum q => q == 0
  | .vnan => false
  | .vdate _ => false

/-- `to_int` from the source:
`if not s: return math.nan` and otherwise
`int(s.replace('.', '').replace(' ', ''))`.  Removing every `'.'` and `' '`
is expressed as a filter (both patterns are single characters).  A non-string
argument reaches `.replace` and raises `AttributeError`. -/
def to_int (v : Value) : Except ExtractionErr Value :=
  if pyFalsy v then .ok .vnan
  else
    match v with
    | .vstr s =>
        match pyIntParse (s.filter (fun c => !(c == '.' || c == ' '))) with
        | some n => .ok (.vnum (n : ℚ))
        | none => .error .valueError
    | _ => .error .attributeError

/-- Replace the decimal comma by a dot, as `s.replace(',', '.')` does
(single-character pattern, hence a map). -/
def commaToDot (c : Char) : Char := if c == ',' then '.' else c

/-- `to_float` from the source:
`if not s: return math.nan` and otherwise `float(s.replace(',', '.'))`. -/
def to_float (v : Value) : Except ExtractionErr Value :=
  if pyFalsy v then .ok .vnan
  else
    match v with
    | .vstr s =>
        match pyFloatParse (s.map commaToDot) with
        | some q => .ok (.vnum q)
        | none => .error .valueError
    | _ => .error .attributeError

/-! ## Column schema -/

/-- Modelled from the spec: `cartesian_join` is defined in the repository's
`common.py`, which is not among the given sources.  Per the spec (§3, §4.7 —
"sex-prefix × field" / "male/female/total prefixes × {cases, deaths}") it
concatenates every prefix with every field, prefixes outermost. -/
def cartesian_join (ps fs : List String) : List String :=
  ps.flatMap (fun p => fs.map (fun f => p ++ f))

def COLUMN_PREFIXES : List String := ["male_", "female_", ""]

def COLUMN_FIELDS : List String :=
  ["cases", "cases_percentage", "deaths", "deaths_percentage", "fatality_rate"]

def COLUMNS : List String := "age_group" :: cartesian_join COLUMN_PREFIXES COLUMN_FIELDS

/-- The three converter kinds appearing in `COLUMN_CONVERTERS`:
`str`, `to_int` and `to_float`. -/
inductive ConvKind where
  | kstr
  | kint
  | kfloat
deriving DecidableEq, Repr

/-- The per-sex block `[to_int, to_float, to_int, to_float, to_float]`. -/
def rowConverters : List ConvKind := [.kint, .kfloat, .kint, .kfloat, .kfloat]

/-- `COLUMN_CONVERTERS = [str] + [to_int, to_float, to_int, to_float, to_float] * 3`. -/
def COLUMN_CONVERTERS : List ConvKind :=
  .kstr :: (rowConverters ++ rowConverters ++ rowConverters)

/-- Apply one converter to a raw token (Python `str` on a string is the
identity). -/
def applyConv (k : ConvKind) (tok : List Char) : Except ExtractionErr Value :=
  match k with
  | .kstr => .ok (.vstr tok)
  | .kint => to_int (.vstr tok)
  | .kfloat => to_float (.vstr tok)

/-- The list comprehension over `zip(values, converters)` in
`convert_values`: `zip` truncates at the shorter list, and the first failing
conversion aborts. -/
def convertList : List (List Char) → List ConvKind → Except ExtractionErr (List Value)
  | [], _ => .ok []
  | _ :: _, [] => .ok []
  | v :: vs, k :: ks =>
      match applyConv k v with
      | .error e => .error e
      | .ok x =>
          match convertList vs ks with
          | .error e => .error e
          | .ok xs => .ok (x :: xs)

/-- `convert_values` from the source: raise `ValueError` when the token group
and the converter list have different lengths, otherwise convert pointwise. -/
def convert_values (values : List (List Char)) (convs : List ConvKind) :
    Except ExtractionErr (List Value) :=
  if values.length ≠ convs.length then .error .valueError
  else convertList values convs

/-! ## Tokenization of the table page -/

/-- `raw_data.replace(', ', ',')` (source line 74): Python `str.replace`
rewrites every non-overlapping occurrence of `", "` in one left-to-right
pass, with no regard for the surrounding characters. -/
def replaceCommaSpace : List Char → List Char
  | [] => []
  | [c] => [c]
  | c :: d :: rest =>
      if c = ',' ∧ d = ' ' then ',' :: replaceCommaSpace rest
      else c :: replaceCommaSpace (d :: rest)

/-- `raw_data.split(' ')`: split at every single space, keeping empty pieces
(Python `split` with an explicit separator). -/
def splitSpace : List Char → List (List Char)
  | [] => [[]]
  | c :: rest =>
      if c = ' ' then [] :: splitSpace rest
      else
        match splitSpace rest with
        | [] => [[c]]
        | t :: ts => (c :: t) :: ts

/-- The canonical replacement text of the unknown-age matcher. -/
def unknownToken : List Char := "unknown".toList

/-- Scanner of `unknownAgeSub`, structurally recursive on a fuel counter so
that it evaluates by reduction; every step consumes at least one input
character, so fuel equal to the input length never runs out. -/
def unknownAgeSubGo : Nat → List Char → List Char
  | 0, cs => cs
  | _ + 1, [] => []
  | fuel + 1, c :: rest =>
      if isPrefixCI "età non nota".toList (c :: rest) then
        unknownToken ++ unknownAgeSubGo fuel (List.drop 11 rest)
      else if isPrefixCI "non not".toList (c :: rest) &&
          (match List.drop 6 rest with
           | 'a' :: _ => true
           | 'o' :: _ => true
           | 'A' :: _ => true
           | 'O' :: _ => true
           | _ => false) then
        unknownToken ++ unknownAgeSubGo fuel (List.drop 7 rest)
      else c :: unknownAgeSubGo fuel rest

/-- `unknown_age_matcher.sub('unknown', page)`: rewrite every leftmost
non-overlapping, case-insensitive occurrence of `età non nota` (tried first,
as the first alternative) or `non not[ao]` to `unknown`. -/
def unknownAgeSub (cs : List Char) : List Char := unknownAgeSubGo cs.length cs

/-- Python `page.find('0-9')`: index of the leftmost occurrence, `none` for
Python's `-1`. -/
def pyFind (cs pat : List Char) : Option Nat :=
  (List.range (cs.length + 1)).find? (fun p => pat.isPrefixOf (List.drop p cs))

/-- `page[data_start:]` where `data_start` is the result of `find`: for a hit
drop the prefix, for Python's `-1` the slice `page[-1:]` keeps only the last
character. -/
def pySliceFromFind (cs : List Char) (r : Option Nat) : List Char :=
  match r with
  | some i => List.drop i cs
  | none => List.drop (cs.length - 1) cs

/-- Token sequence produced from a located table page by the source
(lines 71–75): canonicalize the unknown-age label, cut at the first `0-9`,
collapse `", "`, split on single spaces. -/
def pyTokens (pageText : List Char) : List (List Char) :=
  let page := unknownAgeSub pageText
  let raw := pySliceFromFind page (pyFind page "0-9".toList)
  splitSpace (replaceCommaSpace raw)

/-! ## Row building (`PyPDFTableExtractor.extract`, lines 76–85) -/

def num_rows : Nat := 11

def num_columns : Nat := COLUMNS.length

/-- `tokens[i * num_columns : (i + 1) * num_columns]`. -/
def rowSlice (tokens : List (List Char)) (i : Nat) : List (List Char) :=
  (tokens.drop (i * num_columns)).take num_columns

/-- The `for i in range(num_rows)` loop: convert each fixed-width slice and
prepend the shared date to the row. -/
def buildRowsFrom (tokens : List (List Char)) (date : PyDateTime) :
    List Nat → Except ExtractionErr (List (List Value))
  | [] => .ok []
  | i :: rest =>
      match convert_values (rowSlice tokens i) COLUMN_CONVERTERS with
      | .error e => .error e
      | .ok values =>
          match buildRowsFrom tokens date rest with
          | .error e => .error e
          | .ok more => .ok ((.vdate date :: values) :: more)

/-- Build the 11 rows of the table from the token sequence. -/
def buildTableRows (tokens : List (List Char)) (date : PyDateTime) :
    Except ExtractionErr (List (List Value)) :=
  buildRowsFrom tokens date (List.range num_rows)

/-! ## The DataFrame: rows are positional lists laid out as `dfColumns` -/

/-- The DataFrame column layout: `['date', *COLUMNS]`. -/
def dfColumns : List String := "date" :: COLUMNS

/-- Position of a column label inside a row (pandas label lookup). -/
def colIndexOf (col : String) : Nat := dfColumns.findIdx (fun c => c == col)

/-- Read the cell at row `r`, column position `c`. -/
def getCellV (t : List (List Value)) (r c : Nat) : Option Value :=
  (t.get? r).bind (fun row => row.get? c)

/-- `table.at[r, col] = v` on an existing row label: overwrite one cell. -/
def updateCell (t : List (List Value)) (r c : Nat) (v : Value) : List (List Value) :=
  match t.get? r with
  | none => t
  | some row => t.set r (row.set c v)

/-- `normalize_table` from the source: overwrite the `age_group` cell of row
9 with the ASCII text `>=90` and of row 10 with `unknown`. -/
def normalize_table (t : List (List Value)) : List (List Value) :=
  let t1 := updateCell t 9 (colIndexOf "age_group") (.vstr ">=90".toList)
  updateCell t1 10 (colIndexOf "age_group") (.vstr "unknown".toList)

/-- `extract` (lines 71–86) from the located table page on: tokenize the
page, build the 11 rows, wrap them in the DataFrame layout and normalize. -/
def pyExtractRows (pageText : List Char) (date : PyDateTime) :
    Except ExtractionErr (List (List Value)) :=
  (buildTableRows (pyTokens pageText) date).map normalize_table

/-! ## Totals validation (`sanity_check_with_totals`) -/

/-- Contribution of one row to a column sum: pandas `Series.sum()` skips NaN
cells (skipna defaults to true), so only finite numeric cells count. -/
def cellContrib (j : Nat) (row : List Value) : ℚ :=
  match row.get? j with
  | some (.vnum q) => q
  | _ => 0

/-- `table[col].sum()` with NaN skipped. -/
def colSum (t : List (List Value)) (col : String) : ℚ :=
  (t.map (cellContrib (colIndexOf col))).sum

/-- `cartesian_join(COLUMN_PREFIXES, ['cases', 'deaths'])`: the six validated
columns. -/
def checkColumns : List String := cartesian_join COLUMN_PREFIXES ["cases", "deaths"]

/-- The `for col in columns` loop of `sanity_check_with_totals`: raise on the
first column whose sum disagrees with the supplied total, naming the column
and both values. -/
def sanityGo (t : List (List Value)) (totals : String → ℚ) :
    List String → Except ExtractionErr Unit
  | [] => .ok ()
  | c :: rest =>
      if colSum t c ≠ totals c then
        .error (.inconsistentTotals c (colSum t c) (totals c))
      else sanityGo t totals rest

/-- `sanity_check_with_totals` from the source. -/
def sanity_check_with_totals (t : List (List Value)) (totals : String → ℚ) :
    Except ExtractionErr Unit :=
  sanityGo t totals checkColumns

/-! ## Caption pattern and page location -/

/-- The character class `[0-9- ]` of the caption pattern. -/
def captionCls (c : Char) : Bool := c.isDigit || c == '-' || c == ' '

/-- `.` of the caption pattern: any character but a newline. -/
def anyChar (c : Char) : Bool := !(c == '\n')

/-- Candidates for a greedy `+` over a character class: the non-empty
prefixes of the maximal run, longest first, paired with what remains. -/
def classRunCands (p : Char → Bool) (cs : List Char) : List (List Char × List Char) :=
  let run := cs.takeWhile p
  let rest := cs.dropWhile p
  (List.range run.length).map
    (fun j => (run.take (run.length - j), run.drop (run.length - j) ++ rest))

/-- Strip a case-insensitive literal, or fail. -/
def stripCI (pat cs : List Char) : Option (List Char) :=
  if isPrefixCI pat cs then some (cs.drop pat.length) else none

/-- Match the caption regex
`tabella [0-9- ]+ distribuzione dei casi .+ per fascia di et. ` (IGNORECASE)
anchored at the head of `cs`, with the greedy backtracking of `re`. -/
def captionMatchAt (cs : List Char) : Bool :=
  match stripCI "tabella ".toList cs with
  | none => false
  | some r1 =>
      (classRunCands captionCls r1).any (fun cand =>
        match stripCI " distribuzione dei casi ".toList cand.2 with
        | none => false
        | some r3 =>
            (classRunCands anyChar r3).any (fun cand2 =>
              match stripCI " per fascia di et".toList cand2.2 with
              | none => false
              | some r5 =>
                  match r5 with
                  | c :: ' ' :: _ => anyChar c
                  | _ => false))

/-- `TABLE_CAPTION_PATTERN.search(text)` as a Boolean: some position of the
text starts a caption match. -/
def captionMatches (cs : List Char) : Bool :=
  (List.range (cs.length + 1)).any (fun p => captionMatchAt (cs.drop p))

/-- The `for i in range(1, num_pages)` loop of `find_table_page`. -/
def findPages (pages : Nat → List Char) :
    List Nat → Except ExtractionErr (List Char × Nat)
  | [] => .error .tableNotFound
  | i :: rest =>
      if captionMatches (pages i) then .ok (pages i, i)
      else findPages pages rest

/-- `find_table_page` from the source: scan pages `1 .. num_pages - 1` in
order for the caption pattern; page 0 is never inspected. -/
def find_table_page (pages : Nat → List Char) (numPages : Nat) :
    Except ExtractionErr (List Char × Nat) :=
  findPages pages (List.range' 1 (numPages - 1))

/-! ## Timestamp pattern and extraction -/

/-- Captured groups of `DATETIME_PATTERN`. -/
structure DtGroups where
  day : List Char
  month : List Char
  year : List Char
  hour : List Char
  minute : List Char
deriving DecidableEq, Repr

/-- `lo ≤ c ≤ hi` as a character-class range test. -/
def inRange (lo hi c : Char) : Bool := decide (lo ≤ c ∧ c ≤ hi)

/-- First hour character class `[o0-2]` (IGNORECASE makes `o` also match
`O`). -/
def hourHi (c : Char) : Bool := c.toLower == 'o' || inRange '0' '2' c

/-- Second hour / minute character class `[o0-9]`. -/
def hourLo (c : Char) : Bool := c.toLower == 'o' || c.isDigit

/-- First minute character class `[o0-5]`. -/
def minHi (c : Char) : Bool := c.toLower == 'o' || inRange '0' '5' c

/-- Modelled from the spec: the day sub-pattern of the Italian date pattern
built by `common.get_italian_date_pattern` (not among the given sources) —
one or two digits with the tens digit in `[0-3]`, greedy. -/
def dayCands : List Char → List (List Char × List Char)
  | [] => []
  | [a] => if a.isDigit then [([a], [])] else []
  | a :: b :: rest =>
      (if inRange '0' '3' a && b.isDigit then [([a, b], rest)] else []) ++
      (if a.isDigit then [([a], b :: rest)] else [])

/-- The separator `[ ]?` the source instantiates the date pattern with:
an optional single space, greedy. -/
def sepCands : List Char → List (List Char × List Char)
  | ' ' :: rest => [([' '], rest), ([], ' ' :: rest)]
  | cs => [([], cs)]

/-- The twelve Italian month names, in calendar order. -/
def monthNameList : List (List Char) :=
  ["gennaio".toList, "febbraio".toList, "marzo".toList, "aprile".toList,
   "maggio".toList, "giugno".toList, "luglio".toList, "agosto".toList,
   "settembre".toList, "ottobre".toList, "novembre".toList, "dicembre".toList]

/-- Modelled from the spec: the month sub-pattern — a localized month name
or a one/two-digit number (tens digit in `[0-1]`), names tried first. -/
def monthCands (cs : List Char) : List (List Char × List Char) :=
  (monthNameList.filterMap (fun nm =>
    if isPrefixCI nm cs then some (cs.take nm.length, cs.drop nm.length) else none)) ++
  (match cs with
   | [] => []
   | [a] => if a.isDigit then [([a], [])] else []
   | a :: b :: rest =>
       (if inRange '0' '1' a && b.isDigit then [([a, b], rest)] else []) ++
       (if a.isDigit then [([a], b :: rest)] else []))

/-- Modelled from the spec: the year sub-pattern — four digits. -/
def yearCands : List Char → List (List Char × List Char)
  | a :: b :: c :: d :: rest =>
      if a.isDigit && b.isDigit && c.isDigit && d.isDigit then
        [([a, b, c, d], rest)]
      else []
  | _ => []

/-- The `[- ]*` run between the date and `ore`, greedy: longest first, down
to the empty run. -/
def gapCands (cs : List Char) : List (List Char × List Char) :=
  let run := cs.takeWhile (fun c => c == '-' || c == ' ')
  let rest := cs.dropWhile (fun c => c == '-' || c == ' ')
  (List.range (run.length + 1)).map
    (fun j => (run.take (run.length - j), run.drop (run.length - j) ++ rest))

/-- A case-insensitive literal as a single candidate. -/
def litCands (pat cs : List Char) : List (List Char × List Char) :=
  if isPrefixCI pat cs then [(cs.take pat.length, cs.drop pat.length)] else []

/-- The hour sub-pattern `[o0-2]?[o0-9]|3[o0-1]` from the source, with the
backtracking preference of `re`: the first alternative greedy (two
characters, then one), then the second alternative. -/
def hourCands : List Char → List (List Char × List Char)
  | [] => []
  | [a] => if hourLo a then [([a], [])] else []
  | a :: b :: rest =>
      (if hourHi a && hourLo b then [([a, b], rest)] else []) ++
      (if hourLo a then [([a], b :: rest)] else []) ++
      (if a == '3' && (b.toLower == 'o' || inRange '0' '1' b) then [([a, b], rest)] else [])

/-- The minute sub-pattern `[o0-5][o0-9]` from the source: exactly two
characters. -/
def minuteCands : List Char → List (List Char × List Char)
  | a :: b :: rest => if minHi a && hourLo b then [([a, b], rest)] else []
  | _ => []

/-- Match `DATETIME_PATTERN` anchored at the head of `cs`: date (day,
separator, month, separator, year), the `[- ]*` run, the literal ` ore `,
hour, `:`, minute.  Candidates are explored in the depth-first order of the
regex engine and the first full match wins. -/
def matchDTAt (cs : List Char) : Option DtGroups :=
  ((dayCands cs).flatMap (fun dc =>
    (sepCands dc.2).flatMap (fun s1 =>
      (monthCands s1.2).flatMap (fun mc =>
        (sepCands mc.2).flatMap (fun s2 =>
          (yearCands s2.2).flatMap (fun yc =>
            (gapCands yc.2).flatMap (fun g =>
              (litCands " ore ".toList g.2).flatMap (fun o =>
                (hourCands o.2).flatMap (fun hc =>
                  (litCands ":".toList hc.2).flatMap (fun col =>
                    (minuteCands col.2).map (fun mi =>
                      ⟨dc.1, mc.1, yc.1, hc.1, mi.1⟩))))))))))).head?

/-- `DATETIME_PATTERN.search(text)`: the match at the leftmost matching
position. -/
def searchDT (cs : List Char) : Option DtGroups :=
  ((List.range (cs.length + 1)).filterMap (fun p => matchDTAt (cs.drop p))).head?

/-- Modelled from the spec: `process_datetime_tokens` translates the OCR
`o`-for-zero glyphs to `0` before numeric parsing (§4.4). -/
def oGlyphFix (cs : List Char) : List Char :=
  cs.map (fun c => if c.toLower == 'o' then '0' else c)

/-- Modelled from the spec: resolve a localized month name to its numeric
value, or parse a numeric month. -/
def monthValue (cs : List Char) : Option Nat :=
  match monthNameList.findIdx? (fun nm => nm == cs.map Char.toLower) with
  | some i => some (i + 1)
  | none => parseUnsignedInt (oGlyphFix cs)

/-- Day count of a month, with leap years (Python `datetime` validation). -/
def daysInMonth (y m : Nat) : Nat :=
  if m = 2 then (if y % 4 == 0 && (y % 100 != 0 || y % 400 == 0) then 29 else 28)
  else if m = 4 || m = 6 || m = 9 || m = 11 then 30 else 31

/-- The `datetime(**datetime_dict)` constructor: validates its ranges. -/
def mkPyDateTime (y mo d h mi : Nat) : Option PyDateTime :=
  if 1 ≤ y ∧ y ≤ 9999 ∧ 1 ≤ mo ∧ mo ≤ 12 ∧ 1 ≤ d ∧ d ≤ daysInMonth y mo ∧
      h ≤ 23 ∧ mi ≤ 59 then
    some ⟨y, mo, d, h, mi⟩
  else none

/-- Decode the captured groups into a `datetime` value. -/
def processDT (g : DtGroups) : Option PyDateTime := do
  let d ← parseUnsignedInt (oGlyphFix g.day)
  let mo ← monthValue g.month
  let y ← parseUnsignedInt (oGlyphFix g.year)
  let h ← parseUnsignedInt (oGlyphFix g.hour)
  let mi ← parseUnsignedInt (oGlyphFix g.minute)
  mkPyDateTime y mo d h mi

/-- `extract_datetime` from the source: search the first page's text for
`DATETIME_PATTERN`; no match raises `TableExtractionError` (the
`TimestampNotFound` kind of the spec), a match is decoded into a
`datetime`. -/
def extract_datetime (text : List Char) : Except ExtractionErr PyDateTime :=
  match searchDT text with
  | none => .error .timestampNotFound
  | some g =>
      match processDT g with
      | some dt => .ok dt
      | none => .error .valueError

/-! ## Concrete inputs used by witnesses and counterexamples -/

deriving instance DecidableEq for Except

/-- A fixed report timestamp used by concrete tables. -/
def dateW : PyDateTime := ⟨2020, 1, 1, 0, 0⟩

/-- A synthetic table page carrying 177 tokens: the literal `0-9` bracket
label followed by 176 copies of `1`. -/
def c1Text : List Char :=
  "0-9".toList ++ (List.replicate 176 [' ', '1']).flatten

/-- A page text matching the caption pattern. -/
def c3Caption : List Char :=
  "tabella 1 distribuzione dei casi x per fascia di età ".toList

/-- A two-page document whose caption appears only on page 0. -/
def c3Pages : Nat → List Char :=
  fun i => if i = 0 then c3Caption else "x".toList

/-- One well-formed 17-cell row: date, label, fifteen numeric cells of 1. -/
def sampleRow : List Value :=
  .vdate dateW :: .vstr "0-9".toList :: List.replicate 15 (.vnum 1)

/-- An 11-row table of `sampleRow`s. -/
def sampleTable : List (List Value) := List.replicate 11 sampleRow

/-- `sampleRow` with its `cases` cell (position 12) replaced by NaN. -/
def nanRow : List Value := sampleRow.set 12 .vnan

/-- An 11-row table with one missing `cases` cell. -/
def tableWithMissing : List (List Value) := nanRow :: List.replicate 10 sampleRow

/-- Totals under which the `cases` column must sum to 10 and every other
validated column to 11. -/
def totalsTen : String → ℚ := fun c => if c = "cases" then 10 else 11

/-- Totals equal to every column sum of `sampleTable`. -/
def totalsEleven : String → ℚ := fun _ => 11

/-- `true` iff the two-character pattern `", "` occurs in the string. -/
def hasCS : List Char → Bool
  | [] => false
  | [_] => false
  | c :: d :: rest => decide (c = ',' ∧ d = ' ') || hasCS (d :: rest)

/-! ## Helper lemmas on characters and lists -/

theorem ne_of_isDigit {c d : Char} (h : c.isDigit = true) (hd : d.isDigit = false) :
    c ≠ d := by
  rintro rfl
  rw [h] at hd
  cases hd

theorem isWs_eq_false_of_isDigit {c : Char} (h : c.isDigit = true) : isWs c = false := by
  have h1 : c ≠ ' ' := ne_of_isDigit h (by decide)
  have h2 : c ≠ '\t' := ne_of_isDigit h (by decide)
  have h3 : c ≠ '\n' := ne_of_isDigit h (by decide)
  have h4 : c ≠ '\r' := ne_of_isDigit h (by decide)
  simp [isWs, h1, h2, h3, h4]

theorem dropWhile_eq_self_of_no (p : Char → Bool) (l : List Char)
    (h : ∀ c ∈ l, p c = false) : l.dropWhile p = l := by
  cases l with
  | nil => rfl
  | cons a t => simp [List.dropWhile, h a (by simp)]

theorem trimWs_eq_self (l : List Char) (h : ∀ c ∈ l, isWs c = false) :
    trimWs l = l := by
  unfold trimWs
  rw [dropWhile_eq_self_of_no _ _ h,
    dropWhile_eq_self_of_no _ _ (by intro c hc; exact h c (by simpa using hc)),
    List.reverse_reverse]

theorem takeWhile_append_all (p : Char → Bool) :
    ∀ (a rest : List Char), a.all p = true →
      (a ++ rest).takeWhile p = a ++ rest.takeWhile p := by
  intro a
  induction a with
  | nil => simp
  | cons c t ih =>
      intro rest h
      simp only [List.all_cons, Bool.and_eq_true] at h
      simp [List.takeWhile, h.1, ih rest h.2]

theorem dropWhile_append_all (p : Char → Bool) :
    ∀ (a rest : List Char), a.all p = true →
      (a ++ rest).dropWhile p = rest.dropWhile p := by
  intro a
  induction a with
  | nil => simp
  | cons c t ih =>
      intro rest h
      simp only [List.all_cons, Bool.and_eq_true] at h
      simp [List.dropWhile, h.1, ih rest h.2]

theorem takeWhile_all_eq (p : Char → Bool) (l : List Char) (h : l.all p = true) :
    l.takeWhile p = l := by
  have := takeWhile_append_all p l [] h
  simpa using this

theorem dropWhile_all_nil (p : Char → Bool) (l : List Char) (h : l.all p = true) :
    l.dropWhile p = [] := by
  have := dropWhile_append_all p l [] h
  simpa using this

theorem pyIntParse_digits (ds : List Char) (hne : ds ≠ [])
    (hall : ds.all Char.isDigit = true) :
    pyIntParse ds = some (Int.ofNat (digitsToNat ds)) := by
  have hws : ∀ c ∈ ds, isWs c = false := by
    intro c hc
    exact isWs_eq_false_of_isDigit (by simpa using (List.all_eq_true.mp hall) c hc)
  obtain ⟨c, t, rfl⟩ := List.exists_cons_of_ne_nil hne
  have hcdig : c.isDigit = true := by
    simpa using (List.all_eq_true.mp hall) c (by simp)
  have hplus : ¬((c :: t).head? = some '+') := by
    simp only [List.head?_cons, Option.some.injEq]
    exact ne_of_isDigit hcdig (by decide)
  have hminus : ¬((c :: t).head? = some '-') := by
    simp only [List.head?_cons, Option.some.injEq]
    exact ne_of_isDigit hcdig (by decide)
  unfold pyIntParse
  rw [trimWs_eq_self _ hws]
  rw [if_neg hplus, if_neg hminus]
  unfold parseUnsignedInt
  rw [if_neg (by simp), if_pos hall]
  rfl

/-! ## Claim C6 -/

/-- Claim C6, counterexample: re-applying a converter to the missing marker
is not a no-op — `math.nan` is truthy, so `to_int(math.nan)` reaches
`nan.replace(...)` and raises `AttributeError` instead of returning the
missing marker. -/
theorem missing_reconvert_raises :
    to_int .vnan = .error .attributeError ∧
    to_float .vnan = .error .attributeError ∧
    to_int .vnan ≠ .ok .vnan ∧ to_float .vnan ≠ .ok .vnan := by
  refine ⟨rfl, rfl, ?_, ?_⟩ <;> decide

/-- Claim C6 as amended: the empty token converts to the missing marker
under both converters, but re-converting the missing marker is not a no-op:
both converters raise `AttributeError` on it, because `math.nan` is truthy
and is not a string. -/
theorem empty_token_gives_missing :
    to_int (.vstr []) = .ok .vnan ∧ to_float (.vstr []) = .ok .vnan ∧
    to_int .vnan = .error .attributeError ∧
    to_float .vnan = .error .attributeError :=
  ⟨rfl, rfl, rfl, rfl⟩

/-! ## Claim C7 -/

/-- Claim C7: a non-empty token of digits interspersed with `.` and/or
spaces converts to the base-10 value of its digit subsequence; a non-empty
token whose cleanup does not parse as an integer raises `ValueError`
(never coerced to missing or zero). -/
theorem to_int_separator_spec :
    (∀ s : List Char, s ≠ [] →
      (∀ c ∈ s, c.isDigit = true ∨ c = '.' ∨ c = ' ') →
      (∃ c ∈ s, c.isDigit = true) →
      to_int (.vstr s) = .ok (.vnum (digitsToNat (s.filter Char.isDigit)))) ∧
    (∀ s : List Char, s ≠ [] →
      pyIntParse (s.filter (fun c => !(c == '.' || c == ' '))) = none →
      to_int (.vstr s) = .error .valueError) := by
  constructor
  · intro s hne hchars hdig
    have hfilter : s.filter (fun c => !(c == '.' || c == ' ')) = s.filter Char.isDigit := by
      apply List.filter_congr
      intro c hc
      rcases hchars c hc with h | h | h
      · have h1 : c ≠ '.' := ne_of_isDigit h (by decide)
        have h2 : c ≠ ' ' := ne_of_isDigit h (by decide)
        simp [h, h1, h2]
      · subst h; decide
      · subst h; decide
    have hallf : (s.filter Char.isDigit).all Char.isDigit = true := by
      rw [List.all_eq_true]
      intro c hc
      exact (List.mem_filter.mp hc).2
    have hnef : s.filter Char.isDigit ≠ [] := by
      obtain ⟨c, hc, hcd⟩ := hdig
      exact List.ne_nil_of_mem (List.mem_filter.mpr ⟨hc, hcd⟩)
    have hparse := pyIntParse_digits _ hnef hallf
    obtain ⟨c, t, rfl⟩ := List.exists_cons_of_ne_nil hne
    simp only [to_int, pyFalsy, List.isEmpty_cons, Bool.false_eq_true, if_false,
      hfilter, hparse]
    norm_num
  · intro s hne hparse
    obtain ⟨c, t, rfl⟩ := List.exists_cons_of_ne_nil hne
    simp only [to_int, pyFalsy, List.isEmpty_cons, Bool.false_eq_true, if_false, hparse]

/-- Claim C7, witness: `"1.234"` converts to 1234, `"12 345"` to 12345, and
the non-numeric token `"ab"` raises. -/
theorem to_int_separator_spec_witness :
    to_int (.vstr "1.234".toList) = .ok (.vnum 1234) ∧
    to_int (.vstr "12 345".toList) = .ok (.vnum 12345) ∧
    to_int (.vstr "ab".toList) = .error .valueError := by
  refine ⟨?_, ?_, ?_⟩
  · exact (to_int_separator_spec.1 "1.234".toList (by decide) (by decide)
      (by decide)).trans (by decide)
  · exact (to_int_separator_spec.1 "12 345".toList (by decide) (by decide)
      (by decide)).trans (by decide)
  · exact to_int_separator_spec.2 "ab".toList (by decide) (by decide)

/-! ## Claim C8 -/

theorem map_commaToDot_digits (l : List Char) (h : l.all Char.isDigit = true) :
    l.map commaToDot = l := by
  induction l with
  | nil => rfl
  | cons c t ih =>
      simp only [List.all_cons, Bool.and_eq_true] at h
      have hc : c ≠ ',' := ne_of_isDigit h.1 (by decide)
      simp [commaToDot, hc, ih h.2]

/-- Claim C8: a ratio token written `digits,digits` converts, under
`to_float`, to the value of the token with the comma read as a decimal
point. -/
theorem to_float_decimal_comma :
    ∀ a b : List Char, a ≠ [] → b ≠ [] →
      a.all Char.isDigit = true → b.all Char.isDigit = true →
      to_float (.vstr (a ++ ',' :: b)) =
        .ok (.vnum ((digitsToNat a : ℚ) + (digitsToNat b : ℚ) / (10 : ℚ) ^ b.length)) := by
  intro a b hane hbne ha hb
  have hmap : (a ++ ',' :: b).map commaToDot = a ++ '.' :: b := by
    rw [List.map_append, map_commaToDot_digits a ha]
    simp [commaToDot, map_commaToDot_digits b hb]
  have hws : ∀ c ∈ a ++ '.' :: b, isWs c = false := by
    intro c hc
    rcases List.mem_append.mp hc with h | h
    · exact isWs_eq_false_of_isDigit (by simpa using (List.all_eq_true.mp ha) c h)
    · rcases List.mem_cons.mp h with rfl | h
      · decide
      · exact isWs_eq_false_of_isDigit (by simpa using (List.all_eq_true.mp hb) c h)
  obtain ⟨c, t, rfl⟩ := List.exists_cons_of_ne_nil hane
  have hcd : c.isDigit = true := by
    simpa using (List.all_eq_true.mp ha) c (by simp)
  have htake : ((c :: t) ++ '.' :: b).takeWhile Char.isDigit = c :: t := by
    rw [takeWhile_append_all _ _ _ ha]
    simp [List.takeWhile]
  have hdrop : ((c :: t) ++ '.' :: b).dropWhile Char.isDigit = '.' :: b := by
    rw [dropWhile_append_all _ _ _ ha]
    simp [List.dropWhile]
  have hplus : ¬(((c :: t) ++ '.' :: b).head? = some '+') := by
    simp only [List.cons_append, List.head?_cons, Option.some.injEq]
    exact ne_of_isDigit hcd (by decide)
  have hminus : ¬(((c :: t) ++ '.' :: b).head? = some '-') := by
    simp only [List.cons_append, List.head?_cons, Option.some.injEq]
    exact ne_of_isDigit hcd (by decide)
  have hfalsy : pyFalsy (.vstr ((c :: t) ++ ',' :: b)) = false := by
    simp [pyFalsy]
  rw [to_float, hfalsy]
  simp only [Bool.false_eq_true, if_false]
  rw [hmap]
  rw [show pyFloatParse ((c :: t) ++ '.' :: b) = pyFloatMag ((c :: t) ++ '.' :: b) by
    unfold pyFloatParse
    rw [trimWs_eq_self _ hws, if_neg hplus, if_neg hminus]]
  unfold pyFloatMag
  rw [htake, hdrop]
  simp only [List.head?_cons, Option.some.injEq, if_pos rfl, List.tail_cons]
  rw [takeWhile_all_eq _ _ hb, dropWhile_all_nil _ _ hb]
  simp

/-- Claim C8, witness: `"12,5"` converts to 25/2, i.e. 12.5. -/
theorem to_float_decimal_comma_witness :
    to_float (.vstr "12,5".toList) = .ok (.vnum (25 / 2)) := by
  have h := to_float_decimal_comma "12".toList "5".toList (by decide) (by decide)
    (by decide) (by decide)
  have hv : ((digitsToNat "12".toList : ℚ) +
      (digitsToNat "5".toList : ℚ) / (10 : ℚ) ^ "5".toList.length) = 25 / 2 := by
    norm_num [show digitsToNat ['1', '2'] = 12 from rfl,
      show digitsToNat ['5'] = 5 from rfl,
      show "5".toList.length = 1 from rfl]
  rw [hv] at h
  exact h

/-! ## Claim C4 -/

/-- Claim C4, counterexample: the repair step is not restricted to
digit-flanked occurrences — in `"a, b"` neither neighbour of the
comma-space is a digit, yet the text is collapsed to `"a,b"` instead of
being left unchanged. -/
theorem comma_repair_counterexample :
    replaceCommaSpace "a, b".toList = "a,b".toList ∧
    "a,b".toList ≠ "a, b".toList := ⟨by decide, by decide⟩

/-- Claim C4 as amended: the repair step of `build_rows` collapses every
occurrence of comma-followed-by-space to a comma, in one left-to-right pass
and regardless of the flanking characters; in particular a wrapped decimal
such as `"3, 5"` becomes `"3,5"`, but any other `", "` is collapsed as
well. -/
theorem comma_repair_amended :
    ∀ a b : List Char, hasCS a = false →
      replaceCommaSpace (a ++ ',' :: ' ' :: b) = a ++ ',' :: replaceCommaSpace b := by
  intro a
  induction a with
  | nil =>
      intro b _
      rw [List.nil_append, List.nil_append, replaceCommaSpace, if_pos ⟨rfl, rfl⟩]
  | cons c a' ih =>
      intro b ha
      cases a' with
      | nil =>
          have hc : ¬(c = ',' ∧ (',' : Char) = ' ') := fun h => absurd h.2 (by decide)
          simp only [List.cons_append, List.nil_append]
          rw [replaceCommaSpace, if_neg hc, replaceCommaSpace, if_pos ⟨rfl, rfl⟩]
      | cons d a'' =>
          have hnd : ¬(c = ',' ∧ d = ' ') := by
            intro hcd
            rw [hasCS] at ha
            simp [hcd.1, hcd.2] at ha
          have ha' : hasCS (d :: a'') = false := by
            rw [hasCS] at ha
            exact (Bool.or_eq_false_iff.mp ha).2
          simp only [List.cons_append]
          rw [replaceCommaSpace, if_neg hnd]
          have := ih b ha'
          simp only [List.cons_append] at this
          rw [this]

/-- Claim C4, witness: tokenizing the wrapped decimal `"3, 5"` yields the
single token `"3,5"`. -/
theorem comma_repair_amended_witness :
    replaceCommaSpace "3, 5".toList = "3,5".toList := by
  have h := comma_repair_amended ['3'] ['5'] (by decide)
  exact h.trans (by decide)

/-! ## Claim C5 -/

theorem get?_set_self {α : Type} (a : α) :
    ∀ (l : List α) (i : Nat), i < l.length → (l.set i a).get? i = some a := by
  intro l
  induction l with
  | nil => intro i h; exact absurd h (by simp)
  | cons x t ih =>
      intro i h
      cases i with
      | zero => rfl
      | succ j => simpa using ih j (by simpa using h)

theorem get?_set_other {α : Type} (a : α) :
    ∀ (l : List α) (i j : Nat), i ≠ j → (l.set i a).get? j = l.get? j := by
  intro l
  induction l with
  | nil => intro i j _; rfl
  | cons x t ih =>
      intro i j h
      cases i with
      | zero =>
          cases j with
          | zero => exact absurd rfl h
          | succ k => rfl
      | succ i' =>
          cases j with
          | zero => rfl
          | succ k => simpa using ih i' k (by omega)

theorem mem_of_get? {α : Type} :
    ∀ (l : List α) (n : Nat) (a : α), l.get? n = some a → a ∈ l := by
  intro l
  induction l with
  | nil => intro n a h; exact absurd h (by simp)
  | cons x t ih =>
      intro n a h
      cases n with
      | zero => simp at h; simp [h]
      | succ m => exact List.mem_cons_of_mem x (ih m a h)

/-- Claim C5, counterexample: `normalize_table` rewrites row 9's label to
the ASCII text `">=90"`, which is not the Unicode label `"≥90"` stated by
the claim. -/
theorem normalize_label_counterexample :
    getCellV (normalize_table sampleTable) 9 1 = some (.vstr ">=90".toList) ∧
    Value.vstr ">=90".toList ≠ Value.vstr "≥90".toList := ⟨by decide, by decide⟩

/-- Claim C5 as amended: on an 11-row table of full 17-cell rows,
`normalize_table` rewrites exactly the `age_group` cells of row 9 and
row 10 — row 9 to the ASCII label `">=90"` (the source's ASCII equivalent
of `"≥90"`, not the Unicode text itself) and row 10 to `"unknown"` — and
leaves every other cell, the numeric fields and the date included, and
every other row unchanged. -/
theorem normalize_table_spec :
    ∀ t : List (List Value), t.length = 11 → (∀ row ∈ t, row.length = 17) →
      getCellV (normalize_table t) 9 1 = some (.vstr ">=90".toList) ∧
      getCellV (normalize_table t) 10 1 = some (.vstr "unknown".toList) ∧
      (∀ r, r ≠ 9 → r ≠ 10 → (normalize_table t).get? r = t.get? r) ∧
      (∀ r c, c ≠ 1 → getCellV (normalize_table t) r c = getCellV t r c) ∧
      (normalize_table t).length = t.length := by
  intro t hlen hrows
  have hidx : colIndexOf "age_group" = 1 := by decide
  obtain ⟨row9, h9⟩ : ∃ row, t.get? 9 = some row := by
    cases h : t.get? 9 with
    | none =>
        have := List.get?_eq_none.mp h
        omega
    | some row => exact ⟨row, rfl⟩
  obtain ⟨row10, h10⟩ : ∃ row, t.get? 10 = some row := by
    cases h : t.get? 10 with
    | none =>
        have := List.get?_eq_none.mp h
        omega
    | some row => exact ⟨row, rfl⟩
  have hr9 : row9.length = 17 := hrows row9 (mem_of_get? t 9 row9 h9)
  have hr10 : row10.length = 17 := hrows row10 (mem_of_get? t 10 row10 h10)
  have hu1 : updateCell t 9 1 (.vstr ">=90".toList) = t.set 9 (row9.set 1 (.vstr ">=90".toList)) := by
    rw [updateCell, h9]
  have hg10 : (t.set 9 (row9.set 1 (.vstr ">=90".toList))).get? 10 = some row10 := by
    rw [get?_set_other _ _ _ _ (by omega), h10]
  have hnorm : normalize_table t =
      (t.set 9 (row9.set 1 (.vstr ">=90".toList))).set 10
        (row10.set 1 (.vstr "unknown".toList)) := by
    rw [normalize_table, hidx, hu1, updateCell, hg10]
  refine ⟨?_, ?_, ?_, ?_, ?_⟩
  · rw [hnorm, getCellV, get?_set_other _ _ _ _ (by omega),
      get?_set_self _ _ _ (by omega), Option.some_bind,
      get?_set_self _ _ _ (by omega)]
  · rw [hnorm, getCellV, get?_set_self _ _ _ (by simp; omega), Option.some_bind,
      get?_set_self _ _ _ (by omega)]
  · intro r hr9' hr10'
    rw [hnorm, get?_set_other _ _ _ _ (fun h => hr10' h.symm),
      get?_set_other _ _ _ _ (fun h => hr9' h.symm)]
  · intro r c hc
    by_cases hr : r = 9
    · subst hr
      rw [hnorm, getCellV, get?_set_other _ _ _ _ (by omega),
        get?_set_self _ _ _ (by omega), Option.some_bind,
        get?_set_other _ _ _ _ (fun h => hc h.symm), getCellV, h9, Option.some_bind]
    · by_cases hr' : r = 10
      · subst hr'
        rw [hnorm, getCellV, get?_set_self _ _ _ (by simp; omega), Option.some_bind,
          get?_set_other _ _ _ _ (fun h => hc h.symm), getCellV, h10, Option.some_bind]
      · rw [hnorm, getCellV, get?_set_other _ _ _ _ (fun h => hr' h.symm),
          get?_set_other _ _ _ _ (fun h => hr h.symm), getCellV]
  · rw [hnorm]
    simp

/-- Claim C5, witness: on a concrete 11-row table, row 10's label becomes
`"unknown"`. -/
theorem normalize_table_spec_witness :
    getCellV (normalize_table sampleTable) 10 1 = some (.vstr "unknown".toList) :=
  (normalize_table_spec sampleTable (by decide) (by decide)).2.1

/-! ## Claim C1 -/

theorem buildRowsFrom_isErr_of_mem (tokens : List (List Char)) (date : PyDateTime) :
    ∀ idxs : List Nat, ∀ i ∈ idxs,
      isErr (convert_values (rowSlice tokens i) COLUMN_CONVERTERS) = true →
      isErr (buildRowsFrom tokens date idxs) = true := by
  intro idxs
  induction idxs with
  | nil => intro i h; exact absurd h (by simp)
  | cons j rest ih =>
      intro i hi herr
      rw [buildRowsFrom]
      cases hc : convert_values (rowSlice tokens j) COLUMN_CONVERTERS with
      | error e => rfl
      | ok vals =>
          rcases List.mem_cons.mp hi with rfl | hmem
          · rw [hc] at herr
            exact absurd herr (by simp [isErr])
          · have hrest := ih i hmem herr
            cases hb : buildRowsFrom tokens date rest with
            | error e => rfl
            | ok more =>
                rw [hb] at hrest
                exact absurd hrest (by simp [isErr])

theorem buildRowsFrom_congr (t1 t2 : List (List Char)) (date : PyDateTime) :
    ∀ idxs : List Nat, (∀ i ∈ idxs, rowSlice t1 i = rowSlice t2 i) →
      buildRowsFrom t1 date idxs = buildRowsFrom t2 date idxs := by
  intro idxs
  induction idxs with
  | nil => intro _; rfl
  | cons j rest ih =>
      intro h
      rw [buildRowsFrom, buildRowsFrom, h j (List.mem_cons_self j rest),
        ih (fun i hi => h i (List.mem_cons_of_mem j hi))]

/-- Claim C1 as amended: `build_rows` fails whenever fewer than 11·16 = 176
tokens remain (the short final slice trips the `convert_values` length
check), and whenever a token inside the first 176 fails its column's
conversion; but a token count exceeding 176 is not rejected — the extractor
reads only the first 176 tokens and ignores the excess, so only the
sufficiency half of the claim holds. -/
theorem build_rows_token_count_spec :
    (∀ (tokens : List (List Char)) (date : PyDateTime),
      tokens.length < 176 → isErr (buildTableRows tokens date) = true) ∧
    (∀ (tokens : List (List Char)) (date : PyDateTime) (i : Nat), i < 11 →
      isErr (convert_values (rowSlice tokens i) COLUMN_CONVERTERS) = true →
      isErr (buildTableRows tokens date) = true) ∧
    (∀ (tokens : List (List Char)) (date : PyDateTime), 176 ≤ tokens.length →
      buildTableRows tokens date = buildTableRows (tokens.take 176) date) := by
  have hconv : COLUMN_CONVERTERS.length = 16 := by decide
  have hnc : num_columns = 16 := by decide
  refine ⟨?_, ?_, ?_⟩
  · intro tokens date hlen
    have hslice : (rowSlice tokens 10).length ≠ COLUMN_CONVERTERS.length := by
      rw [hconv, rowSlice, hnc, List.length_take, List.length_drop]
      omega
    have herr : convert_values (rowSlice tokens 10) COLUMN_CONVERTERS = .error .valueError := by
      rw [convert_values, if_pos hslice]
    apply buildRowsFrom_isErr_of_mem tokens date (List.range num_rows) 10
    · rw [show num_rows = 11 from rfl]
      exact List.mem_range.mpr (by omega)
    · rw [herr]
      rfl
  · intro tokens date i hi herr
    apply buildRowsFrom_isErr_of_mem tokens date (List.range num_rows) i
    · rw [show num_rows = 11 from rfl]
      exact List.mem_range.mpr hi
    · exact herr
  · intro tokens date hlen
    apply buildRowsFrom_congr
    intro i hi
    have hi11 : i < 11 := by
      rw [show num_rows = 11 from rfl] at hi
      exact List.mem_range.mp hi
    rw [rowSlice, rowSlice, hnc, List.drop_take, List.take_take]
    have hmin : min 16 (176 - i * 16) = 16 := by omega
    rw [hmin]

/-- Claim C1, counterexample: a table page whose text yields 177 tokens —
neither a multiple of 16 nor 11·16 — is not rejected: extraction succeeds
and yields a table, the 177th token simply being ignored. -/
theorem token_count_counterexample :
    (pyTokens c1Text).length = 177 ∧ isErr (pyExtractRows c1Text dateW) = false :=
  ⟨by decide, by decide⟩

/-- Claim C1, witness: an empty token sequence (fewer than 176 tokens) is
rejected, and on the 177-token page the extractor reads exactly the first
176 tokens. -/
theorem build_rows_token_count_spec_witness :
    isErr (buildTableRows [] dateW) = true ∧
    buildTableRows (pyTokens c1Text) dateW =
      buildTableRows ((pyTokens c1Text).take 176) dateW := by
  constructor
  · exact build_rows_token_count_spec.1 [] dateW (by decide)
  · exact build_rows_token_count_spec.2.2 (pyTokens c1Text) dateW (by decide)

/-! ## Claim C2 -/

theorem sanityGo_ok_iff (t : List (List Value)) (totals : String → ℚ) :
    ∀ cols : List String,
      (sanityGo t totals cols = .ok () ↔ ∀ c ∈ cols, colSum t c = totals c) := by
  intro cols
  induction cols with
  | nil => simp [sanityGo]
  | cons d rest ih =>
      constructor
      · intro h c hc
        rw [sanityGo] at h
        by_cases hd : colSum t d ≠ totals d
        · rw [if_pos hd] at h
          exact absurd h (by simp)
        · rw [if_neg hd] at h
          push_neg at hd
          rcases List.mem_cons.mp hc with rfl | hc'
          · exact hd
          · exact ih.mp h c hc'
      · intro h
        rw [sanityGo]
        have hd : ¬(colSum t d ≠ totals d) := by
          push_neg
          exact h d (List.mem_cons_self d rest)
        rw [if_neg hd]
        exact ih.mpr (fun c hc => h c (List.mem_cons_of_mem d hc))

theorem sanityGo_first_err (t : List (List Value)) (totals : String → ℚ) :
    ∀ (pre post : List String) (c : String),
      (∀ c2 ∈ pre, colSum t c2 = totals c2) → colSum t c ≠ totals c →
      sanityGo t totals (pre ++ c :: post) =
        .error (.inconsistentTotals c (colSum t c) (totals c)) := by
  intro pre
  induction pre with
  | nil =>
      intro post c _ hc
      rw [List.nil_append, sanityGo, if_pos hc]
  | cons d rest ih =>
      intro post c hpre hc
      rw [List.cons_append, sanityGo,
        if_neg (by push_neg; exact hpre d (List.mem_cons_self d rest))]
      exact ih post c (fun c2 h2 => hpre c2 (List.mem_cons_of_mem d h2)) hc

/-- Claim C2: totals validation succeeds exactly when each of the six
validated column sums equals the supplied expected value; the first
mismatching column is reported by name together with the computed sum and
the expected value.  The embedded function is pure — on success it returns
only `()` and the table argument is untouched. -/
theorem sanity_check_spec :
    ∀ (t : List (List Value)) (totals : String → ℚ),
      (sanity_check_with_totals t totals = .ok () ↔
        ∀ c ∈ checkColumns, colSum t c = totals c) ∧
      (∀ (pre post : List String) (c : String),
        checkColumns = pre ++ c :: post →
        (∀ c2 ∈ pre, colSum t c2 = totals c2) → colSum t c ≠ totals c →
        sanity_check_with_totals t totals =
          .error (.inconsistentTotals c (colSum t c) (totals c))) := by
  intro t totals
  constructor
  · exact sanityGo_ok_iff t totals checkColumns
  · intro pre post c hdec hpre hc
    rw [sanity_check_with_totals, hdec]
    exact sanityGo_first_err t totals pre post c hpre hc

theorem colSum_replicate (n : Nat) (row : List Value) (col : String) :
    colSum (List.replicate n row) col = n * cellContrib (colIndexOf col) row := by
  rw [colSum, List.map_replicate, List.sum_replicate, nsmul_eq_mul]

theorem colSum_cons (r : List Value) (t : List (List Value)) (col : String) :
    colSum (r :: t) col = cellContrib (colIndexOf col) r + colSum t col := by
  rw [colSum, List.map_cons, List.sum_cons, colSum]

theorem colSum_sampleTable (c : String) (h : c ∈ checkColumns) :
    colSum sampleTable c = 11 := by
  have hc : c = "male_cases" ∨ c = "male_deaths" ∨ c = "female_cases" ∨
      c = "female_deaths" ∨ c = "cases" ∨ c = "deaths" := by
    have hl : checkColumns = ["male_cases", "male_deaths", "female_cases",
        "female_deaths", "cases", "deaths"] := by decide
    rw [hl] at h
    simpa using h
  have hrep : sampleTable = List.replicate 11 sampleRow := rfl
  rcases hc with rfl | rfl | rfl | rfl | rfl | rfl <;>
    rw [hrep, colSum_replicate] <;>
    rw [show cellContrib (colIndexOf _) sampleRow = 1 from by decide] <;>
    norm_num

/-- Claim C2, witness: on a table whose `cases` column sums to 11 with an
expected total of 10, validation fails naming `cases` and both values;
with all expected totals equal to the computed sums it succeeds. -/
theorem sanity_check_spec_witness :
    sanity_check_with_totals sampleTable totalsTen =
      .error (.inconsistentTotals "cases" (colSum sampleTable "cases") (totalsTen "cases")) ∧
    sanity_check_with_totals sampleTable totalsEleven = .ok () := by
  constructor
  · apply (sanity_check_spec sampleTable totalsTen).2
      ["male_cases", "male_deaths", "female_cases", "female_deaths"] ["deaths"] "cases"
    · decide
    · intro c2 h2
      have h6 : c2 ∈ checkColumns := by
        have : checkColumns = ["male_cases", "male_deaths", "female_cases",
            "female_deaths", "cases", "deaths"] := by decide
        rw [this]
        simp at h2
        rcases h2 with rfl | rfl | rfl | rfl <;> simp
      rw [colSum_sampleTable c2 h6]
      have : c2 ≠ "cases" := by
        simp at h2
        rcases h2 with rfl | rfl | rfl | rfl <;> decide
      rw [totalsTen, if_neg this]
    · rw [colSum_sampleTable "cases" (by decide)]
      rw [show totalsTen "cases" = 10 from rfl]
      norm_num
  · apply (sanity_check_spec sampleTable totalsEleven).1.mpr
    intro c hc
    rw [colSum_sampleTable c hc]
    rfl

/-! ## Claim C10 -/

/-- Claim C10: a NaN cell contributes nothing to a validated column sum —
removing it from the table leaves the sum unchanged — so a table holding
missing values in a cases or deaths column still passes validation whenever
the remaining values sum to the expected totals. -/
theorem missing_cells_skipped :
    (∀ (t1 t2 : List (List Value)) (row : List Value) (col : String),
      row.get? (colIndexOf col) = some .vnan →
      colSum (t1 ++ row :: t2) col = colSum (t1 ++ t2) col) ∧
    sanity_check_with_totals tableWithMissing totalsTen = .ok () := by
  constructor
  · intro t1 t2 row col h
    rw [colSum, colSum, List.map_append, List.map_append, List.map_cons,
      List.sum_append, List.sum_append, List.sum_cons,
      show cellContrib (colIndexOf col) row = 0 from by rw [cellContrib, h],
      zero_add]
  · rw [sanity_check_with_totals]
    apply (sanityGo_ok_iff tableWithMissing totalsTen checkColumns).mpr
    intro c hc
    have hc6 : c = "male_cases" ∨ c = "male_deaths" ∨ c = "female_cases" ∨
        c = "female_deaths" ∨ c = "cases" ∨ c = "deaths" := by
      have hl : checkColumns = ["male_cases", "male_deaths", "female_cases",
          "female_deaths", "cases", "deaths"] := by decide
      rw [hl] at hc
      simpa using hc
    have hrep : tableWithMissing = nanRow :: List.replicate 10 sampleRow := rfl
    rcases hc6 with rfl | rfl | rfl | rfl | rfl | rfl
    · rw [hrep, colSum_cons, colSum_replicate,
        show cellContrib (colIndexOf "male_cases") sampleRow = 1 from by decide,
        show cellContrib (colIndexOf "male_cases") nanRow = 1 from by decide,
        show totalsTen "male_cases" = 11 from by decide]
      norm_num
    · rw [hrep, colSum_cons, colSum_replicate,
        show cellContrib (colIndexOf "male_deaths") sampleRow = 1 from by decide,
        show cellContrib (colIndexOf "male_deaths") nanRow = 1 from by decide,
        show totalsTen "male_deaths" = 11 from by decide]
      norm_num
    · rw [hrep, colSum_cons, colSum_replicate,
        show cellContrib (colIndexOf "female_cases") sampleRow = 1 from by decide,
        show cellContrib (colIndexOf "female_cases") nanRow = 1 from by decide,
        show totalsTen "female_cases" = 11 from by decide]
      norm_num
    · rw [hrep, colSum_cons, colSum_replicate,
        show cellContrib (colIndexOf "female_deaths") sampleRow = 1 from by decide,
        show cellContrib (colIndexOf "female_deaths") nanRow = 1 from by decide,
        show totalsTen "female_deaths" = 11 from by decide]
      norm_num
    · rw [hrep, colSum_cons, colSum_replicate,
        show cellContrib (colIndexOf "cases") sampleRow = 1 from by decide,
        show cellContrib (colIndexOf "cases") nanRow = 0 from by decide,
        show totalsTen "cases" = 10 from by decide]
      norm_num
    · rw [hrep, colSum_cons, colSum_replicate,
        show cellContrib (colIndexOf "deaths") sampleRow = 1 from by decide,
        show cellContrib (colIndexOf "deaths") nanRow = 1 from by decide,
        show totalsTen "deaths" = 11 from by decide]
      norm_num

/-- Claim C10, witness: a row whose `cases` cell is NaN contributes nothing
to the `cases` column sum. -/
theorem missing_cells_skipped_witness :
    colSum ([] ++ nanRow :: []) "cases" = colSum ([] ++ []) "cases" :=
  missing_cells_skipped.1 [] [] nanRow "cases" (by decide)

/-! ## Claim C3 -/

theorem mem_range'_bounds :
    ∀ (n s j : Nat), j ∈ List.range' s n → s ≤ j ∧ j < s + n := by
  intro n
  induction n with
  | zero => intro s j h; exact absurd h (by simp)
  | succ m ih =>
      intro s j h
      rw [List.range'_succ] at h
      rcases List.mem_cons.mp h with rfl | h'
      · omega
      · have := ih (s + 1) j h'
        omega

theorem findPages_ok_mem (pages : Nat → List Char) :
    ∀ (l : List Nat) (txt : List Char) (i : Nat),
      findPages pages l = .ok (txt, i) →
      i ∈ l ∧ txt = pages i ∧ captionMatches (pages i) = true := by
  intro l
  induction l with
  | nil => intro txt i h; exact absurd h (by simp [findPages])
  | cons j rest ih =>
      intro txt i h
      rw [findPages] at h
      cases hj : captionMatches (pages j) with
      | true =>
          rw [hj, if_pos rfl] at h
          simp only [Except.ok.injEq, Prod.mk.injEq] at h
          obtain ⟨htxt, hi⟩ := h
          subst hi
          exact ⟨List.mem_cons_self j rest, htxt.symm, hj⟩
      | false =>
          rw [hj, if_neg (by simp)] at h
          obtain ⟨hmem, htxt, hcap⟩ := ih txt i h
          exact ⟨List.mem_cons_of_mem j hmem, htxt, hcap⟩

theorem findPages_none (pages : Nat → List Char) :
    ∀ l : List Nat, (∀ j ∈ l, captionMatches (pages j) = false) →
      findPages pages l = .error .tableNotFound := by
  intro l
  induction l with
  | nil => intro _; rfl
  | cons j rest ih =>
      intro h
      rw [findPages, h j (List.mem_cons_self j rest), if_neg (by simp)]
      exact ih (fun k hk => h k (List.mem_cons_of_mem j hk))

theorem findPages_congr (pages pages2 : Nat → List Char) :
    ∀ l : List Nat, (∀ j ∈ l, pages j = pages2 j) →
      findPages pages l = findPages pages2 l := by
  intro l
  induction l with
  | nil => intro _; rfl
  | cons j rest ih =>
      intro h
      rw [findPages, findPages, h j (List.mem_cons_self j rest),
        ih (fun k hk => h k (List.mem_cons_of_mem j hk))]

theorem findPages_range'_first (pages : Nat → List Char) :
    ∀ (cnt s : Nat) (txt : List Char) (i : Nat),
      findPages pages (List.range' s cnt) = .ok (txt, i) →
      ∀ j, s ≤ j → j < i → captionMatches (pages j) = false := by
  intro cnt
  induction cnt with
  | zero =>
      intro s txt i h
      exact absurd h (by simp [List.range', findPages])
  | succ n ih =>
      intro s txt i h j hsj hji
      rw [List.range'_succ, findPages] at h
      cases hs : captionMatches (pages s) with
      | true =>
          rw [hs, if_pos rfl] at h
          simp only [Except.ok.injEq, Prod.mk.injEq] at h
          omega
      | false =>
          rw [hs, if_neg (by simp)] at h
          by_cases hjs : j = s
          · subst hjs; exact hs
          · exact ih (s + 1) txt i h j (by omega) hji

/-- Claim C3: `find_table_page` never inspects page 0 (its result is
invariant under changing page 0's text), scans pages 1..N-1 in order and
returns the first caption match paired with its index, and fails with
`TableNotFound` when no page in 1..N-1 matches — even when page 0 alone
matches the caption pattern. -/
theorem find_table_page_spec :
    (∀ (pages : Nat → List Char) (n : Nat) (txt : List Char) (i : Nat),
      find_table_page pages n = .ok (txt, i) →
      1 ≤ i ∧ i < n ∧ txt = pages i ∧ captionMatches (pages i) = true ∧
        ∀ j, 1 ≤ j → j < i → captionMatches (pages j) = false) ∧
    (∀ (pages : Nat → List Char) (n : Nat),
      (∀ j, 1 ≤ j → j < n → captionMatches (pages j) = false) →
      find_table_page pages n = .error .tableNotFound) ∧
    (∀ (pages pages2 : Nat → List Char) (n : Nat),
      (∀ j, 1 ≤ j → pages j = pages2 j) →
      find_table_page pages n = find_table_page pages2 n) := by
  refine ⟨?_, ?_, ?_⟩
  · intro pages n txt i h
    rw [find_table_page] at h
    obtain ⟨hmem, htxt, hcap⟩ := findPages_ok_mem pages _ txt i h
    have hb := mem_range'_bounds (n - 1) 1 i hmem
    exact ⟨by omega, by omega, htxt, hcap,
      findPages_range'_first pages (n - 1) 1 txt i h⟩
  · intro pages n h
    rw [find_table_page]
    apply findPages_none
    intro j hj
    have hb := mem_range'_bounds (n - 1) 1 j hj
    exact h j (by omega) (by omega)
  · intro pages pages2 n h
    rw [find_table_page, find_table_page]
    apply findPages_congr
    intro j hj
    have hb := mem_range'_bounds (n - 1) 1 j hj
    exact h j (by omega)

/-- Claim C3, witness: on a two-page document whose caption appears only on
page 0, the scan fails with `TableNotFound`. -/
theorem find_table_page_spec_witness :
    find_table_page c3Pages 2 = .error .tableNotFound ∧
    captionMatches (c3Pages 0) = true := by
  constructor
  · apply find_table_page_spec.2.1 c3Pages 2
    intro j h1 h2
    have hj : j = 1 := by omega
    subst hj
    decide
  · decide

/-! ## Claim C9 -/

theorem searchDT_eq_none (t : List Char)
    (h : ∀ p, p < t.length + 1 → matchDTAt (List.drop p t) = none) :
    searchDT t = none := by
  have hnil : (List.range (t.length + 1)).filterMap (fun p => matchDTAt (t.drop p)) = [] := by
    rw [List.filterMap_eq_nil_iff]
    intro p hp
    exact h p (List.mem_range.mp hp)
  rw [searchDT, hnil]
  rfl

/-- Claim C9: the timestamp pattern accepts `o` as a glyph for the digit
`0` in the hour and minute fields — an hour written `o9` parses identically
to `09` (`o` accepted by the leading class `[o0-2]`) and a minute written
`o5` identically to `05` (`o` accepted by the tens-position class
`[o0-5]`) — and a first-page text with no pattern match at any position
fails with `TimestampNotFound`. -/
theorem extract_datetime_spec :
    (extract_datetime "Dati al 12 marzo 2021 - ore o9:o5".toList =
        .ok ⟨2021, 3, 12, 9, 5⟩ ∧
      extract_datetime "Dati al 12 marzo 2021 - ore 09:05".toList =
        .ok ⟨2021, 3, 12, 9, 5⟩ ∧
      extract_datetime "Dati al 12 marzo 2021 - ore o9:o5".toList =
        extract_datetime "Dati al 12 marzo 2021 - ore 09:05".toList) ∧
    (∀ t : List Char,
      (∀ p, p < t.length + 1 → matchDTAt (List.drop p t) = none) →
      extract_datetime t = .error .timestampNotFound) := by
  constructor
  · refine ⟨by decide, by decide, by decide⟩
  · intro t h
    rw [extract_datetime, searchDT_eq_none t h]

/-- Claim C9, witness: a text with no timestamp fails with
`TimestampNotFound`. -/
theorem extract_datetime_spec_witness :
    extract_datetime "xy".toList = .error .timestampNotFound :=
  extract_datetime_spec.2 "xy".toList (by decide)
